import Mathlib

/-!
Shallow embedding of the register-allocation core declared in
`src/asmjit/core/rapass_p.h` (classes `RABlock`, `RAInst`, `RAInstBuilder`,
and the inline methods of `RAPass`).

Machine integers are modelled as `Nat` with explicit 32-bit masking where the
source relies on `uint32_t` semantics.  Pointers into zone-allocated arrays are
modelled as indices (`Nat`, or `Option Nat` where the source uses a nullable
pointer).  Out-of-line code of this repository that is not under `src/`
(`radefs_p.h`, `rastack_p.h`, `raassignment_p.h`, `rapass.cpp`) is modelled
from the spec; every such definition carries a doc comment starting with
`Modelled from the spec:`.
-/

set_option maxRecDepth 8192

namespace AsmJit

/-- Sentinel register id `BaseReg::kIdBad` meaning "no fixed physical register". -/
def kIdBad : Nat := 0xFF

/-- `Support::mask(id)`: a single-bit 32-bit mask, `1u << id`. -/
def mask (id : Nat) : Nat := (1 <<< id) % 2 ^ 32

/-- Bitwise complement inside a 32-bit word (`~x` on `uint32_t`). -/
def not32 (x : Nat) : Nat := x ^^^ 0xFFFFFFFF

/-- Error kinds of the core that the embedded operations can surface
(`kErrorNoHeapMemory`, `kErrorOverlappedRegs`, `kErrorInvalidVirtId`, ...).
Success (`kErrorOk`) is modelled by `Option.none` / `Except.ok`. -/
inductive RAError where
  | noHeapMemory
  | overlappedRegs
  | invalidVirtId
  | invalidState
  | outOfPhysRegs
deriving DecidableEq

/-- Modelled from the spec: `RATiedReg` flags from `radefs_p.h` (not under
`src/`).  Only the two bits the header under spec manipulates are needed:
`kUseFixed` ("fixed use register") and `kOutFixed` ("fixed output register").
The concrete bit positions are representation choices; the code only ORs and
tests them. -/
def kUseFixed : Nat := 0x00000010

/-- Modelled from the spec: the `OutFixed` flag bit of `RATiedReg`. -/
def kOutFixed : Nat := 0x00000020

/-- Modelled from the spec: `RATiedReg` (`radefs_p.h`, not under `src/`):
per-(instruction, workReg) descriptor with `workId`, flags, `allocableRegs`
mask, `useId`/`outId` (fixed physical ids or `kIdBad`), the two rewrite masks
and a ref count. -/
structure RATiedReg where
  workId : Nat
  flags : Nat
  allocableRegs : Nat
  useId : Nat
  useRewriteMask : Nat
  outId : Nat
  outRewriteMask : Nat
  refCount : Nat
deriving DecidableEq

instance : Inhabited RATiedReg :=
  ⟨⟨0, 0, 0, kIdBad, 0, kIdBad, 0, 0⟩⟩

/-- Modelled from the spec: `RATiedReg::init` fills all fields and starts the
ref count at one. -/
def RATiedReg.init (workId flags allocable useId useRewriteMask outId outRewriteMask : Nat) :
    RATiedReg :=
  { workId := workId
    flags := flags
    allocableRegs := allocable
    useId := useId
    useRewriteMask := useRewriteMask
    outId := outId
    outRewriteMask := outRewriteMask
    refCount := 1 }

/-- Modelled from the spec: `RATiedReg::hasUseId` — a fixed use register is present. -/
def RATiedReg.hasUseId (t : RATiedReg) : Bool := t.useId ≠ kIdBad

/-- Modelled from the spec: `RATiedReg::hasOutId` — a fixed output register is present. -/
def RATiedReg.hasOutId (t : RATiedReg) : Bool := t.outId ≠ kIdBad

/-- Modelled from the spec: `RATiedReg::setOutId`. -/
def RATiedReg.setOutId (t : RATiedReg) (id : Nat) : RATiedReg := { t with outId := id }

/-- Modelled from the spec: `RATiedReg::addRefCount`. -/
def RATiedReg.addRefCount (t : RATiedReg) : RATiedReg := { t with refCount := t.refCount + 1 }

/-- Modelled from the spec: `RATiedReg::addFlags`. -/
def RATiedReg.addFlags (t : RATiedReg) (f : Nat) : RATiedReg := { t with flags := t.flags ||| f }

/-- Modelled from the spec: `RARegCount` — four per-group 8-bit counters
(`BaseReg::kGroupVirt == 4`), modelled as a list of four naturals. -/
def RARegCount.zero : List Nat := [0, 0, 0, 0]

/-- Modelled from the spec: `RARegCount::add(group)` increments one counter. -/
def RARegCount.add (c : List Nat) (group : Nat) : List Nat :=
  c.set group (c.getD group 0 + 1)

/-- Modelled from the spec: `RARegIndex::buildIndexes(count)` — per-group
prefix sums: `index[g]` is the sum of the counts of all groups below `g`. -/
def RARegIndex.buildIndexes (c : List Nat) : List Nat :=
  [0,
   c.getD 0 0,
   c.getD 0 0 + c.getD 1 0,
   c.getD 0 0 + c.getD 1 0 + c.getD 2 0]

/-- Modelled from the spec: `RARegsStats` (`radefs_p.h`) — a packed word with
a "used" bit per group at bit `group` and a "fixed" bit per group at bit
`8 + group`. -/
structure RARegsStats where
  packed : Nat
deriving DecidableEq

/-- Modelled from the spec: `RARegsStats::reset`. -/
def RARegsStats.reset : RARegsStats := ⟨0⟩

/-- Modelled from the spec: `RARegsStats::makeUsed(group)`. -/
def RARegsStats.makeUsed (s : RARegsStats) (group : Nat) : RARegsStats :=
  ⟨s.packed ||| mask group⟩

/-- Modelled from the spec: `RARegsStats::makeFixed(group)`. -/
def RARegsStats.makeFixed (s : RARegsStats) (group : Nat) : RARegsStats :=
  ⟨s.packed ||| mask (8 + group)⟩

/-- Modelled from the spec: `RARegsStats::hasUsed(group)`. -/
def RARegsStats.hasUsed (s : RARegsStats) (group : Nat) : Bool :=
  s.packed &&& mask group ≠ 0

/-- Modelled from the spec: `RARegsStats::hasFixed(group)`. -/
def RARegsStats.hasFixed (s : RARegsStats) (group : Nat) : Bool :=
  s.packed &&& mask (8 + group) ≠ 0

/-- Modelled from the spec: `RARegMask` — one 32-bit register mask per group,
as a list of four naturals.  `RARegMask.zero` is the reset state. -/
def RARegMask.zero : List Nat := [0, 0, 0, 0]

/-- OR a value into the mask of one group (`m[group] |= val`). -/
def RARegMask.orAt (m : List Nat) (group val : Nat) : List Nat :=
  m.set group (m.getD group 0 ||| val)

/-- Modelled from the spec: `RAWorkReg` (`radefs_p.h`) — the fields the header
under spec touches: dense `workId`, register group, the originating VirtReg
(as an index `virtId`), flags, the transient tied-reg scratch link (an index
into the builder array, null when not accumulating) and the optional stack
slot (an index into the stack allocator's slot list). -/
structure RAWorkReg where
  workId : Nat
  group : Nat
  virtId : Nat
  flags : Nat
  tiedReg : Option Nat
  stackSlot : Option Nat
deriving DecidableEq

instance : Inhabited RAWorkReg := ⟨⟨0, 0, 0, 0, none, none⟩⟩

/-- Modelled from the spec: `RAWorkReg::kFlagStackUsed` bit. -/
def RAWorkReg.kFlagStackUsed : Nat := 0x00000002

/-- Modelled from the spec: `RAWorkReg::setTiedReg`. -/
def RAWorkReg.setTiedReg (w : RAWorkReg) (i : Nat) : RAWorkReg := { w with tiedReg := some i }

/-- Modelled from the spec: `RAWorkReg::resetTiedReg`. -/
def RAWorkReg.resetTiedReg (w : RAWorkReg) : RAWorkReg := { w with tiedReg := none }

/-- Modelled from the spec: `RAWorkReg::markStackUsed`. -/
def RAWorkReg.markStackUsed (w : RAWorkReg) : RAWorkReg :=
  { w with flags := w.flags ||| RAWorkReg.kFlagStackUsed }

/-- `RAInstBuilder` (rapass_p.h:326): accumulates tied-register records for one
instruction.  `_cur`/`_tiedRegs` (pointer into a fixed array of 128) are
modelled as the list of records added so far; the 128-entry capacity is an
assertion in the source, not an error path, and is not modelled. -/
structure RAInstBuilder where
  flags : Nat
  count : List Nat
  stats : RARegsStats
  used : List Nat
  clobbered : List Nat
  tiedRegs : List RATiedReg
deriving DecidableEq

/-- `RAInstBuilder::reset` (rapass_p.h:337): clears counts, stats, masks, and
the tied-reg cursor.  Note the source does not touch `_flags`. -/
def RAInstBuilder.reset (ib : RAInstBuilder) : RAInstBuilder :=
  { ib with
    count := RARegCount.zero
    stats := RARegsStats.reset
    used := RARegMask.zero
    clobbered := RARegMask.zero
    tiedRegs := [] }

/-- `RAInstBuilder::init` (rapass_p.h:336): delegates to `reset`.  The default
constructor (rapass_p.h:334) likewise only calls `reset()`, leaving `_flags`
with its previous (uninitialized) contents. -/
def RAInstBuilder.init (ib : RAInstBuilder) : RAInstBuilder := ib.reset

/-- `RAInstBuilder::tiedRegCount` (rapass_p.h:353): `_cur - _tiedRegs`. -/
def RAInstBuilder.tiedRegCount (ib : RAInstBuilder) : Nat := ib.tiedRegs.length

/-- `RAInstBuilder::add` (rapass_p.h:371-417).  Returns the updated builder,
the updated work register (whose scratch `tiedReg` link the source mutates in
place), and `some error` on failure / `none` on `kErrorOk`.  Mutations already
performed before an error return are kept, as in the source. -/
def RAInstBuilder.add (ib : RAInstBuilder) (workReg : RAWorkReg)
    (flags allocable useId useRewriteMask outId outRewriteMask : Nat) :
    RAInstBuilder × RAWorkReg × Option RAError :=
  let group := workReg.group
  let flags := if useId ≠ kIdBad then flags ||| kUseFixed else flags
  let ib := if useId ≠ kIdBad then
      { ib with
        stats := ib.stats.makeFixed group
        used := RARegMask.orAt ib.used group (mask useId) }
    else ib
  let flags := if outId ≠ kIdBad then flags ||| kOutFixed else flags
  let ib := if outId ≠ kIdBad then
      { ib with clobbered := RARegMask.orAt ib.clobbered group (mask outId) }
    else ib
  let ib := { ib with flags := ib.flags ||| flags, stats := ib.stats.makeUsed group }
  match workReg.tiedReg with
  | none =>
    let t := RATiedReg.init workReg.workId flags allocable useId useRewriteMask
        outId outRewriteMask
    ({ ib with tiedRegs := ib.tiedRegs ++ [t], count := RARegCount.add ib.count group },
     workReg.setTiedReg ib.tiedRegs.length, none)
  | some i =>
    let t := ib.tiedRegs.getD i default
    if outId ≠ kIdBad ∧ t.hasOutId = true then
      (ib, workReg, some RAError.overlappedRegs)
    else
      let t := if outId ≠ kIdBad then t.setOutId outId else t
      let t := (t.addRefCount).addFlags flags
      let t := { t with
                 allocableRegs := t.allocableRegs &&& allocable
                 useRewriteMask := t.useRewriteMask ||| useRewriteMask
                 outRewriteMask := t.outRewriteMask ||| outRewriteMask }
      ({ ib with tiedRegs := ib.tiedRegs.set i t }, workReg, none)

/-- `RABlock::Flags` (rapass_p.h:36-46). -/
def kFlagIsConstructed : Nat := 0x00000001
/-- `RABlock::kFlagIsReachable`. -/
def kFlagIsReachable : Nat := 0x00000002
/-- `RABlock::kFlagIsAllocated`. -/
def kFlagIsAllocated : Nat := 0x00000004
/-- `RABlock::kFlagIsFuncExit`. -/
def kFlagIsFuncExit : Nat := 0x00000008
/-- `RABlock::kFlagHasTerminator`. -/
def kFlagHasTerminator : Nat := 0x00000010
/-- `RABlock::kFlagHasConsecutive`. -/
def kFlagHasConsecutive : Nat := 0x00000020
/-- `RABlock::kFlagHasFixedRegs`. -/
def kFlagHasFixedRegs : Nat := 0x00000040
/-- `RABlock::kFlagHasFuncCalls`. -/
def kFlagHasFuncCalls : Nat := 0x00000080

/-- `RABlock` (rapass_p.h:28): the fields the embedded operations read.
Blocks are referred to by `blockId`; successors/predecessors are lists of
block ids. -/
structure RABlock where
  blockId : Nat
  flags : Nat
  successors : List Nat
  predecessors : List Nat
deriving DecidableEq

/-- `RABlock::hasFlag` (rapass_p.h:96). -/
def RABlock.hasFlag (b : RABlock) (f : Nat) : Bool := b.flags &&& f ≠ 0

/-- `RABlock::addFlags` (rapass_p.h:97). -/
def RABlock.addFlags (b : RABlock) (f : Nat) : RABlock := { b with flags := b.flags ||| f }

/-- `RABlock::hasConsecutive` (rapass_p.h:117). -/
def RABlock.hasConsecutive (b : RABlock) : Bool := b.hasFlag kFlagHasConsecutive

/-- `RABlock::consecutive` (rapass_p.h:144):
`hasConsecutive() ? _successors[0] : nullptr`.  The unchecked `[0]` of the
source presumes a nonempty successor list when the flag is set; it is
modelled with `head?`. -/
def RABlock.consecutive (b : RABlock) : Option Nat :=
  if b.hasConsecutive then b.successors.head? else none

/-- `RAInst` (rapass_p.h:235): the per-instruction record.  The inline
variable-length `_tiedRegs` array is modelled as a list of length
`tiedTotal`. -/
structure RAInst where
  blockId : Nat
  flags : Nat
  tiedTotal : Nat
  tiedIndex : List Nat
  tiedCount : List Nat
  usedRegs : List Nat
  clobberedRegs : List Nat
  tiedRegs : List RATiedReg
deriving DecidableEq

/-- A node of the instruction stream: only the pass-data slot the allocator
writes (`BaseNode::setPassData`) is modelled. -/
structure BaseNode where
  passData : Option RAInst
deriving DecidableEq

/-- Accumulator threaded through the loop body of `RAPass::assignRAInst`
(rapass_p.h:582-601): the RAInst tied-reg array being filled, the running
per-group write index, the work-register table (whose scratch links the loop
resets), the block's flag word and the RAInst's `_usedRegs`. -/
structure AssignAcc where
  arr : List RATiedReg
  index : List Nat
  workRegs : List RAWorkReg
  blockFlags : Nat
  usedRegs : List Nat
deriving DecidableEq

/-- One iteration of the loop of `RAPass::assignRAInst` (rapass_p.h:582-601)
for the tied register `t`: reset the work register's scratch link, record
fixed use/out registers on the block and the RAInst, and copy `t` (with its
allocable mask stripped of the builder's fixed-use registers of its group)
into the array slot `index[group]`, incrementing that index. -/
def assignStep (used : List Nat) (acc : AssignAcc) (t : RATiedReg) : AssignAcc :=
  let workReg := acc.workRegs.getD t.workId default
  let workRegs := acc.workRegs.set t.workId workReg.resetTiedReg
  let group := workReg.group
  let blockFlags := if t.hasUseId then acc.blockFlags ||| kFlagHasFixedRegs
    else acc.blockFlags
  let usedRegs := if t.hasUseId then RARegMask.orAt acc.usedRegs group (mask t.useId)
    else acc.usedRegs
  let blockFlags := if t.hasOutId then blockFlags ||| kFlagHasFixedRegs else blockFlags
  let pos := acc.index.getD group 0
  let dst : RATiedReg := { t with allocableRegs := t.allocableRegs &&& not32 (used.getD group 0) }
  { arr := acc.arr.set pos dst
    index := acc.index.set group (pos + 1)
    workRegs := workRegs
    blockFlags := blockFlags
    usedRegs := usedRegs }

/-- `RAPass::assignRAInst` (rapass_p.h:569-605): publish the builder into a
newly allocated `RAInst` and store it on the node's pass-data slot.  The
freshly zone-allocated array contents before the copy loop are modelled by
`List.replicate _ default`; the allocation-failure branch
(`kErrorNoHeapMemory`) is the success path's complement and is not taken in
this model of an always-succeeding zone. -/
def RAPass.assignRAInst (node : BaseNode) (block : RABlock) (workRegs : List RAWorkReg)
    (ib : RAInstBuilder) : BaseNode × RABlock × List RAWorkReg × RAInst :=
  let tiedRegCount := ib.tiedRegCount
  let index := RARegIndex.buildIndexes ib.count
  let acc0 : AssignAcc :=
    { arr := List.replicate tiedRegCount default
      index := index
      workRegs := workRegs
      blockFlags := block.flags
      usedRegs := RARegMask.zero }
  let acc := ib.tiedRegs.foldl (assignStep ib.used) acc0
  let raInst : RAInst :=
    { blockId := block.blockId
      flags := ib.flags
      tiedTotal := tiedRegCount
      tiedIndex := index
      tiedCount := ib.count
      usedRegs := acc.usedRegs
      clobberedRegs := ib.clobbered
      tiedRegs := acc.arr }
  ({ node with passData := some raInst }, { block with flags := acc.blockFlags },
   acc.workRegs, raInst)

/-- Modelled from the spec: `VirtReg` (external, per spec section 3): carries
size, alignment, register group, and an optional back-link to a WorkReg
(as a `workId`). -/
structure VirtReg where
  virtSize : Nat
  alignment : Nat
  group : Nat
  workReg : Option Nat
deriving DecidableEq

instance : Inhabited VirtReg := ⟨⟨0, 0, 0, none⟩⟩

/-- The slice of `RAPass` state the register-management helpers touch: the
compiler's virtual-register table (`cc()->virtRegs()`), the global work
register list indexed by `workId`, and the per-group work register lists. -/
structure RAPassState where
  virtRegs : List VirtReg
  workRegs : List RAWorkReg
  workRegsOfGroup : List (List Nat)
deriving DecidableEq

/-- Modelled from the spec: `RAPass::_asWorkReg` is implemented outside this
header (`rapass.cpp`, not under `src/`).  Per the spec, it constructs a fresh
WorkReg for the VirtReg at `vIndex`, registers it in (i) the global list
indexed by the next dense `workId` and (ii) the per-group list of its
register group, links the VirtReg to it, and returns it. -/
def RAPass.underscoreAsWorkReg (st : RAPassState) (vIndex : Nat) : RAPassState × Nat :=
  let vReg := st.virtRegs.getD vIndex default
  let workId := st.workRegs.length
  let wReg : RAWorkReg :=
    { workId := workId
      group := vReg.group
      virtId := vIndex
      flags := 0
      tiedReg := none
      stackSlot := none }
  ({ st with
     virtRegs := st.virtRegs.set vIndex { vReg with workReg := some workId }
     workRegs := st.workRegs ++ [wReg]
     workRegsOfGroup := st.workRegsOfGroup.set vReg.group
       ((st.workRegsOfGroup.getD vReg.group []) ++ [workId]) },
   workId)

/-- `RAPass::asWorkReg` (rapass_p.h:712-715): return the VirtReg's existing
WorkReg, or delegate to `_asWorkReg` to create one.  The VirtReg pointer
argument of the source is its index in the compiler's table. -/
def RAPass.asWorkReg (st : RAPassState) (vIndex : Nat) : RAPassState × Nat :=
  match (st.virtRegs.getD vIndex default).workReg with
  | some w => (st, w)
  | none => RAPass.underscoreAsWorkReg st vIndex

/-- `RAPass::virtIndexAsWorkReg` (rapass_p.h:717-722): bounds-check the
virtual register index against `cc()->virtRegs()` and delegate to
`asWorkReg`. -/
def RAPass.virtIndexAsWorkReg (st : RAPassState) (vIndex : Nat) :
    Except RAError (RAPassState × Nat) :=
  if st.virtRegs.length ≤ vIndex then Except.error RAError.invalidVirtId
  else Except.ok (RAPass.asWorkReg st vIndex)

/-- Modelled from the spec: `RAStackSlot` (`rastack_p.h`, not under `src/`):
a stack slot records its base register, size and alignment; slot ids are
independent of physical register ids. -/
structure RAStackSlot where
  baseRegId : Nat
  size : Nat
  alignment : Nat
  flags : Nat
deriving DecidableEq

/-- Modelled from the spec: `RAStackAllocator` (`rastack_p.h`): the list of
slots created so far; a slot id is its index. -/
structure RAStackAllocator where
  slots : List RAStackSlot
deriving DecidableEq

/-- Modelled from the spec: `RAStackAllocator::newSlot` allocates one fresh
slot with the given base register, size, alignment and flags, and returns its
id ("Slots are allocated via the stack allocator with the WorkReg's size and
alignment"). -/
def RAStackAllocator.newSlot (sa : RAStackAllocator) (baseRegId size alignment flags : Nat) :
    RAStackAllocator × Nat :=
  ({ slots := sa.slots ++
      [{ baseRegId := baseRegId, size := size, alignment := alignment, flags := flags }] },
   sa.slots.length)



/-- `RAPass::getOrCreateStackSlot` (rapass_p.h:724-732): return the
WorkReg's stored slot if present; otherwise create one via the stack
allocator with the originating VirtReg's size and alignment, store it on the
WorkReg and mark the WorkReg stack-used.  `_sp.id()` is passed as `spId`;
the VirtReg is read from `virtRegs` through the WorkReg's link. -/
def RAPass.getOrCreateStackSlot (sa : RAStackAllocator) (spId : Nat)
    (virtRegs : List VirtReg) (workReg : RAWorkReg) :
    RAStackAllocator × RAWorkReg × Nat :=
  match workReg.stackSlot with
  | some slot => (sa, workReg, slot)
  | none =>
    let vReg := virtRegs.getD workReg.virtId default
    let r := sa.newSlot spId vReg.virtSize vReg.alignment 0
    (r.1, ({ workReg with stackSlot := some r.2 }).markStackUsed, r.2)

/-- The bump zone allocator: allocated chunks in order; a pointer is a chunk
index.  `Zone::dup(data, size)` allocates a fresh chunk holding the first
`size` bytes of `data` and returns its address. -/
structure Zone where
  chunks : List (List Nat)
deriving DecidableEq

/-- `Zone::dup`: duplicate `size` bytes of `data` into a fresh chunk. -/
def Zone.dup (z : Zone) (data : List Nat) (size : Nat) : Zone × Nat :=
  ({ chunks := z.chunks ++ [data.take size] }, z.chunks.length)

/-- Modelled from the spec: `WorkToPhysMap::sizeOf` (`raassignment_p.h`, not
under `src/`): a WorkToPhysMap is a dense array `workId → physId` of size W,
one byte per entry, so its byte size is W. -/
def WorkToPhysMap.sizeOfBytes (count : Nat) : Nat := count

/-- `RAPass::cloneWorkToPhysMap` (rapass_p.h:747-752): if the map's byte size
(for `_workRegs.size()` entries) is zero, return the input pointer unchanged;
otherwise return a fresh zone-allocated duplicate.  The map pointer and its
pointee are passed separately (`mapPtr`, `mapData`). -/
def RAPass.cloneWorkToPhysMap (z : Zone) (workRegCount : Nat) (mapPtr : Nat)
    (mapData : List Nat) : Zone × Nat :=
  let size := WorkToPhysMap.sizeOfBytes workRegCount
  if size = 0 then (z, mapPtr)
  else z.dup mapData size

/-- `RAPass::dominates` (rapass_p.h:655): non-strict dominance, `a == b ? true
: _strictlyDominates(a, b)`.  The out-of-line `_strictlyDominates` is
abstracted as the parameter `sd`; blocks are block ids. -/
def RAPass.dominates (sd : Nat → Nat → Bool) (a b : Nat) : Bool :=
  if a = b then true else sd a b

/-- `RAPass::strictlyDominates` (rapass_p.h:657): strict dominance, `a == b ?
false : _strictlyDominates(a, b)`. -/
def RAPass.strictlyDominates (sd : Nat → Nat → Bool) (a b : Nat) : Bool :=
  if a = b then false else sd a b

/-!  Shared helper lemmas about 32-bit masks and lists. -/

theorem mask_eq_pow {k : Nat} (hk : k < 32) : mask k = 2 ^ k := by
  have h : (2 : Nat) ^ k < 4294967296 := by
    calc (2 : Nat) ^ k < 2 ^ 32 := Nat.pow_lt_pow_right (by omega) hk
    _ = 4294967296 := by norm_num
  simp [mask, Nat.one_shiftLeft, Nat.mod_eq_of_lt h]

theorem mask_testBit_self {k : Nat} (hk : k < 32) : (mask k).testBit k = true := by
  rw [mask_eq_pow hk]
  exact Nat.testBit_two_pow_self

theorem ne_zero_of_testBit {x k : Nat} (h : x.testBit k = true) : x ≠ 0 := by
  intro h0
  subst h0
  simp [Nat.zero_testBit] at h

theorem and_mask_ne_zero {x k : Nat} (hk : k < 32) (h : x.testBit k = true) :
    x &&& mask k ≠ 0 := by
  refine ne_zero_of_testBit (k := k) ?_
  simp [Nat.testBit_and, h, mask_testBit_self hk]

theorem lor_mask_testBit {x k : Nat} (hk : k < 32) : (x ||| mask k).testBit k = true := by
  simp [Nat.testBit_or, mask_testBit_self hk]

/-- C8: `RAInstBuilder::reset` (to which `init` and the default constructor
delegate) clears the per-group tied counts, the stats, the used and clobbered
register masks, and resets the tied-reg cursor so that `tiedRegCount()` is 0,
but leaves the instruction-level `_flags` word unchanged, so flags accumulated
for one instruction persist across `reset`. -/
theorem reset_clears_all_but_flags (ib : RAInstBuilder) :
    (ib.reset).count = RARegCount.zero ∧
    (ib.reset).stats = RARegsStats.reset ∧
    (ib.reset).used = RARegMask.zero ∧
    (ib.reset).clobbered = RARegMask.zero ∧
    (ib.reset).tiedRegCount = 0 ∧
    (ib.reset).flags = ib.flags ∧
    ib.init = ib.reset :=
  ⟨rfl, rfl, rfl, rfl, rfl, rfl, rfl⟩

/-- C7: `RABlock::consecutive` returns the block's first successor (the
fall-through block) when the `HasConsecutive` flag is set, and null (`none`)
when the flag is not set. -/
theorem consecutive_head_or_none (b : RABlock) (s : Nat) (rest : List Nat) :
    (b.hasConsecutive = true → b.successors = s :: rest → b.consecutive = some s) ∧
    (b.hasConsecutive = false → b.consecutive = none) := by
  constructor
  · intro h hs
    simp [RABlock.consecutive, h, hs]
  · intro h
    simp [RABlock.consecutive, h]

/-- Witness for C7 at a concrete block: with the flag set and successors
`[5, 7]` the fall-through is block 5; without the flag the result is null. -/
theorem consecutive_head_or_none_witness :
    (RABlock.mk 0 kFlagHasConsecutive [5, 7] []).consecutive = some 5 ∧
    (RABlock.mk 1 0 [5, 7] []).consecutive = none := by
  constructor
  · exact (consecutive_head_or_none ⟨0, kFlagHasConsecutive, [5, 7], []⟩ 5 [7]).1
      (by decide) rfl
  · exact (consecutive_head_or_none ⟨1, 0, [5, 7], []⟩ 5 [7]).2 (by decide)

/-- C10: `dominates` is exactly the reflexive closure of `strictlyDominates`:
it is true on the diagonal and equals the out-of-line `_strictlyDominates`
(the parameter `sd`) off it; `strictlyDominates` is false on the diagonal; and
both agree with `_strictlyDominates` on all pairs with `a ≠ b`. -/
theorem dominates_reflexive_closure (sd : Nat → Nat → Bool) (a b : Nat) :
    RAPass.dominates sd a b = (decide (a = b) || RAPass.strictlyDominates sd a b) ∧
    RAPass.strictlyDominates sd a a = false ∧
    (a ≠ b → RAPass.dominates sd a b = sd a b ∧
      RAPass.strictlyDominates sd a b = sd a b) := by
  refine ⟨?_, ?_, ?_⟩
  · by_cases h : a = b <;> simp [RAPass.dominates, RAPass.strictlyDominates, h]
  · simp [RAPass.strictlyDominates]
  · intro h
    simp [RAPass.dominates, RAPass.strictlyDominates, h]

/-- Witness for C10 at a concrete strict-dominance relation and pair. -/
theorem dominates_reflexive_closure_witness :
    RAPass.dominates (fun x y => decide (x < y)) 2 3 = decide (2 < 3) ∧
    RAPass.strictlyDominates (fun x y => decide (x < y)) 2 3 = decide (2 < 3) :=
  (dominates_reflexive_closure (fun x y => decide (x < y)) 2 3).2.2 (by decide)

theorem lor_and_self_ne_zero {x m k : Nat} (hm : m.testBit k = true) :
    (x ||| m) &&& m ≠ 0 := by
  refine ne_zero_of_testBit (k := k) ?_
  simp [Nat.testBit_and, Nat.testBit_or, hm]

/-- C5: `virtIndexAsWorkReg` fails with `InvalidVirtId` if and only if the
index is at least the size of the compiler's virtual-register table; every
in-range index yields `asWorkReg` of that table entry, which returns the
existing WorkReg when the VirtReg already links one and otherwise constructs,
registers and links a fresh one with the next dense work id. -/
theorem virtIndexAsWorkReg_bounds_and_dispatch (st : RAPassState) (vIndex : Nat) :
    (RAPass.virtIndexAsWorkReg st vIndex = Except.error RAError.invalidVirtId ↔
      st.virtRegs.length ≤ vIndex) ∧
    (vIndex < st.virtRegs.length →
      RAPass.virtIndexAsWorkReg st vIndex = Except.ok (RAPass.asWorkReg st vIndex)) ∧
    (∀ w, (st.virtRegs.getD vIndex default).workReg = some w →
      RAPass.asWorkReg st vIndex = (st, w)) ∧
    ((st.virtRegs.getD vIndex default).workReg = none →
      (RAPass.asWorkReg st vIndex).2 = st.workRegs.length ∧
      (RAPass.asWorkReg st vIndex).1.workRegs = st.workRegs ++
        [⟨st.workRegs.length, (st.virtRegs.getD vIndex default).group, vIndex,
          0, none, none⟩] ∧
      (vIndex < st.virtRegs.length →
        ((RAPass.asWorkReg st vIndex).1.virtRegs.getD vIndex default).workReg =
          some st.workRegs.length)) := by
  refine ⟨?_, ?_, ?_, ?_⟩
  · by_cases h : st.virtRegs.length ≤ vIndex <;>
      simp [RAPass.virtIndexAsWorkReg, h]
  · intro h
    simp [RAPass.virtIndexAsWorkReg, Nat.not_le.mpr h]
  · intro w hw
    simp only [List.getD_eq_getElem?_getD] at hw
    simp [RAPass.asWorkReg, hw]
  · intro hn
    simp only [List.getD_eq_getElem?_getD] at hn
    refine ⟨?_, ?_, ?_⟩
    · simp [RAPass.asWorkReg, hn, RAPass.underscoreAsWorkReg]
    · simp [RAPass.asWorkReg, hn, RAPass.underscoreAsWorkReg]
    · intro hlt
      simp [RAPass.asWorkReg, hn, RAPass.underscoreAsWorkReg,
        List.getElem?_set_self hlt]

/-- Witness for C5: with a two-entry virtual-register table whose first entry
already links WorkReg 7 and whose second links none, index 5 is rejected,
index 0 returns the existing link, and index 1 creates WorkReg 0. -/
theorem virtIndexAsWorkReg_bounds_and_dispatch_witness :
    (RAPass.virtIndexAsWorkReg ⟨[⟨4, 4, 0, some 7⟩, ⟨8, 8, 1, none⟩], [], []⟩ 5 =
      Except.error RAError.invalidVirtId) ∧
    (RAPass.asWorkReg ⟨[⟨4, 4, 0, some 7⟩, ⟨8, 8, 1, none⟩], [], []⟩ 0 =
      (⟨[⟨4, 4, 0, some 7⟩, ⟨8, 8, 1, none⟩], [], []⟩, 7)) ∧
    ((RAPass.asWorkReg ⟨[⟨4, 4, 0, some 7⟩, ⟨8, 8, 1, none⟩], [], []⟩ 1).2 = 0 ∧
      (RAPass.asWorkReg ⟨[⟨4, 4, 0, some 7⟩, ⟨8, 8, 1, none⟩], [], []⟩ 1).1.workRegs =
        [⟨0, 1, 1, 0, none, none⟩] ∧
      ((RAPass.asWorkReg ⟨[⟨4, 4, 0, some 7⟩, ⟨8, 8, 1, none⟩], [], []⟩
          1).1.virtRegs.getD 1 default).workReg = some 0) := by
  refine ⟨?_, ?_, ?_⟩
  · exact (virtIndexAsWorkReg_bounds_and_dispatch
      ⟨[⟨4, 4, 0, some 7⟩, ⟨8, 8, 1, none⟩], [], []⟩ 5).1.mpr (by decide)
  · exact (virtIndexAsWorkReg_bounds_and_dispatch
      ⟨[⟨4, 4, 0, some 7⟩, ⟨8, 8, 1, none⟩], [], []⟩ 0).2.2.1 7 rfl
  · have h := (virtIndexAsWorkReg_bounds_and_dispatch
      ⟨[⟨4, 4, 0, some 7⟩, ⟨8, 8, 1, none⟩], [], []⟩ 1).2.2.2 rfl
    exact ⟨h.1, by simpa using h.2.1, h.2.2 (by decide)⟩

/-- C6: the first `getOrCreateStackSlot` call on a WorkReg creates exactly one
slot through the stack allocator, with the originating VirtReg's size and
alignment, stores it on the WorkReg and marks the WorkReg stack-used; a
subsequent call on the updated WorkReg returns the stored slot and creates
nothing. -/
theorem getOrCreateStackSlot_once (sa : RAStackAllocator) (spId : Nat)
    (virtRegs : List VirtReg) (wr : RAWorkReg) (h : wr.stackSlot = none) :
    ((RAPass.getOrCreateStackSlot sa spId virtRegs wr).1.slots.length =
      sa.slots.length + 1) ∧
    ((RAPass.getOrCreateStackSlot sa spId virtRegs wr).2.2 = sa.slots.length) ∧
    ((RAPass.getOrCreateStackSlot sa spId virtRegs wr).1.slots[sa.slots.length]? =
      some ⟨spId, (virtRegs.getD wr.virtId default).virtSize,
        (virtRegs.getD wr.virtId default).alignment, 0⟩) ∧
    ((RAPass.getOrCreateStackSlot sa spId virtRegs wr).2.1.stackSlot =
      some sa.slots.length) ∧
    ((RAPass.getOrCreateStackSlot sa spId virtRegs wr).2.1.flags &&&
      RAWorkReg.kFlagStackUsed ≠ 0) ∧
    (RAPass.getOrCreateStackSlot (RAPass.getOrCreateStackSlot sa spId virtRegs wr).1
        spId virtRegs (RAPass.getOrCreateStackSlot sa spId virtRegs wr).2.1 =
      ((RAPass.getOrCreateStackSlot sa spId virtRegs wr).1,
       (RAPass.getOrCreateStackSlot sa spId virtRegs wr).2.1,
       (RAPass.getOrCreateStackSlot sa spId virtRegs wr).2.2)) := by
  refine ⟨?_, ?_, ?_, ?_, ?_, ?_⟩
  · simp [RAPass.getOrCreateStackSlot, h, RAStackAllocator.newSlot]
  · simp [RAPass.getOrCreateStackSlot, h, RAStackAllocator.newSlot]
  · simp [RAPass.getOrCreateStackSlot, h, RAStackAllocator.newSlot,
      List.getElem?_concat_length]
  · simp [RAPass.getOrCreateStackSlot, h, RAStackAllocator.newSlot,
      RAWorkReg.markStackUsed]
  · simp only [RAPass.getOrCreateStackSlot, h, RAStackAllocator.newSlot,
      RAWorkReg.markStackUsed]
    exact lor_and_self_ne_zero (k := 1) (by decide)
  · simp [RAPass.getOrCreateStackSlot, h, RAStackAllocator.newSlot,
      RAWorkReg.markStackUsed]

/-- Witness for C6 at a concrete allocator, VirtReg table and WorkReg. -/
theorem getOrCreateStackSlot_once_witness :
    ((RAPass.getOrCreateStackSlot ⟨[]⟩ 5 [⟨8, 4, 0, none⟩]
        ⟨0, 0, 0, 0, none, none⟩).1.slots.length = 1) ∧
    ((RAPass.getOrCreateStackSlot ⟨[]⟩ 5 [⟨8, 4, 0, none⟩]
        ⟨0, 0, 0, 0, none, none⟩).2.2 = 0) ∧
    ((RAPass.getOrCreateStackSlot ⟨[]⟩ 5 [⟨8, 4, 0, none⟩]
        ⟨0, 0, 0, 0, none, none⟩).1.slots[0]? = some ⟨5, 8, 4, 0⟩) ∧
    ((RAPass.getOrCreateStackSlot ⟨[]⟩ 5 [⟨8, 4, 0, none⟩]
        ⟨0, 0, 0, 0, none, none⟩).2.1.stackSlot = some 0) ∧
    ((RAPass.getOrCreateStackSlot ⟨[]⟩ 5 [⟨8, 4, 0, none⟩]
        ⟨0, 0, 0, 0, none, none⟩).2.1.flags &&& RAWorkReg.kFlagStackUsed ≠ 0) ∧
    (RAPass.getOrCreateStackSlot
        (RAPass.getOrCreateStackSlot ⟨[]⟩ 5 [⟨8, 4, 0, none⟩]
          ⟨0, 0, 0, 0, none, none⟩).1 5 [⟨8, 4, 0, none⟩]
        (RAPass.getOrCreateStackSlot ⟨[]⟩ 5 [⟨8, 4, 0, none⟩]
          ⟨0, 0, 0, 0, none, none⟩).2.1 =
      ((RAPass.getOrCreateStackSlot ⟨[]⟩ 5 [⟨8, 4, 0, none⟩]
          ⟨0, 0, 0, 0, none, none⟩).1,
       (RAPass.getOrCreateStackSlot ⟨[]⟩ 5 [⟨8, 4, 0, none⟩]
          ⟨0, 0, 0, 0, none, none⟩).2.1,
       (RAPass.getOrCreateStackSlot ⟨[]⟩ 5 [⟨8, 4, 0, none⟩]
          ⟨0, 0, 0, 0, none, none⟩).2.2)) := by
  have h := getOrCreateStackSlot_once ⟨[]⟩ 5 [⟨8, 4, 0, none⟩]
    ⟨0, 0, 0, 0, none, none⟩ rfl
  exact ⟨h.1, h.2.1, by simpa using h.2.2.1, h.2.2.2.1, h.2.2.2.2.1, h.2.2.2.2.2⟩

/-- C9: `cloneWorkToPhysMap` returns the input pointer itself, allocating
nothing, when the pass has zero work registers (the map's byte size is 0); for
a nonzero count it returns a fresh zone-allocated duplicate of the map sized
to the work-register count, at an address distinct from every existing one. -/
theorem cloneWorkToPhysMap_zero_or_dup (z : Zone) (w mapPtr : Nat) (mapData : List Nat) :
    (w = 0 → RAPass.cloneWorkToPhysMap z w mapPtr mapData = (z, mapPtr)) ∧
    (w ≠ 0 →
      (RAPass.cloneWorkToPhysMap z w mapPtr mapData).2 = z.chunks.length ∧
      (RAPass.cloneWorkToPhysMap z w mapPtr mapData).1.chunks =
        z.chunks ++ [mapData.take w] ∧
      (mapPtr < z.chunks.length →
        (RAPass.cloneWorkToPhysMap z w mapPtr mapData).2 ≠ mapPtr)) := by
  constructor
  · intro h
    simp [RAPass.cloneWorkToPhysMap, WorkToPhysMap.sizeOfBytes, h]
  · intro h
    refine ⟨?_, ?_, ?_⟩ <;>
      simp [RAPass.cloneWorkToPhysMap, WorkToPhysMap.sizeOfBytes, h, Zone.dup]
    intro hlt
    omega

/-- Witness for C9: a pass with zero work registers hands back the pointer
unchanged; with two work registers a fresh chunk is allocated. -/
theorem cloneWorkToPhysMap_zero_or_dup_witness :
    RAPass.cloneWorkToPhysMap ⟨[[9], [8]]⟩ 0 1 [3, 4, 5] = (⟨[[9], [8]]⟩, 1) ∧
    ((RAPass.cloneWorkToPhysMap ⟨[[9], [8]]⟩ 2 1 [3, 4, 5]).2 = 2 ∧
      (RAPass.cloneWorkToPhysMap ⟨[[9], [8]]⟩ 2 1 [3, 4, 5]).1.chunks =
        [[9], [8], [3, 4]] ∧
      (RAPass.cloneWorkToPhysMap ⟨[[9], [8]]⟩ 2 1 [3, 4, 5]).2 ≠ 1) := by
  constructor
  · exact (cloneWorkToPhysMap_zero_or_dup ⟨[[9], [8]]⟩ 0 1 [3, 4, 5]).1 rfl
  · have h := (cloneWorkToPhysMap_zero_or_dup ⟨[[9], [8]]⟩ 2 1 [3, 4, 5]).2 (by decide)
    exact ⟨h.1, by simpa using h.2.1, h.2.2 (by decide)⟩

/-- C1: when `add` is called twice for the same WorkReg within one
instruction (the second call finding the first call's in-progress tied
record), the second call fails with `OverlappedRegs` exactly when both calls
pass a fixed output register (`outId != kIdBad` on both); under every other
combination of out ids both calls succeed. -/
theorem add_same_workreg_out_conflict (ib : RAInstBuilder) (wr : RAWorkReg)
    (h : wr.tiedReg = none) (f1 a1 u1 ur1 o1 or1 f2 a2 u2 ur2 o2 or2 : Nat) :
    (ib.add wr f1 a1 u1 ur1 o1 or1).2.2 = none ∧
    (((ib.add wr f1 a1 u1 ur1 o1 or1).1.add (ib.add wr f1 a1 u1 ur1 o1 or1).2.1
        f2 a2 u2 ur2 o2 or2).2.2 = some RAError.overlappedRegs ↔
      (o1 ≠ kIdBad ∧ o2 ≠ kIdBad)) ∧
    (((ib.add wr f1 a1 u1 ur1 o1 or1).1.add (ib.add wr f1 a1 u1 ur1 o1 or1).2.1
        f2 a2 u2 ur2 o2 or2).2.2 = none ↔ ¬(o1 ≠ kIdBad ∧ o2 ≠ kIdBad)) := by
  by_cases hu1 : u1 = kIdBad <;> by_cases ho1 : o1 = kIdBad <;>
    by_cases hu2 : u2 = kIdBad <;> by_cases ho2 : o2 = kIdBad <;>
    simp [RAInstBuilder.add, RATiedReg.init, RATiedReg.hasOutId, RATiedReg.setOutId,
      RATiedReg.addRefCount, RATiedReg.addFlags, RAWorkReg.setTiedReg,
      RARegCount.add, RARegMask.orAt, RARegsStats.makeUsed, RARegsStats.makeFixed,
      h, hu1, ho1, hu2, ho2, List.getD_eq_getElem?_getD, List.getElem?_concat_length]

/-- Witness for C1: from an empty builder, a first reference fixing out
register 0 and a second reference fixing out register 1 on the same WorkReg
hit `OverlappedRegs` on the second call; the first call succeeds. -/
theorem add_same_workreg_out_conflict_witness :
    ((⟨0, RARegCount.zero, ⟨0⟩, RARegMask.zero, RARegMask.zero, []⟩ :
        RAInstBuilder).add ⟨0, 0, 0, 0, none, none⟩ 0 3 kIdBad 1 0 2).2.2 = none ∧
    ((((⟨0, RARegCount.zero, ⟨0⟩, RARegMask.zero, RARegMask.zero, []⟩ :
          RAInstBuilder).add ⟨0, 0, 0, 0, none, none⟩ 0 3 kIdBad 1 0 2).1.add
        ((⟨0, RARegCount.zero, ⟨0⟩, RARegMask.zero, RARegMask.zero, []⟩ :
          RAInstBuilder).add ⟨0, 0, 0, 0, none, none⟩ 0 3 kIdBad 1 0 2).2.1
        0 3 kIdBad 4 1 8).2.2 = some RAError.overlappedRegs ↔
      ((0 : Nat) ≠ kIdBad ∧ (1 : Nat) ≠ kIdBad)) :=
  ⟨(add_same_workreg_out_conflict
      ⟨0, RARegCount.zero, ⟨0⟩, RARegMask.zero, RARegMask.zero, []⟩
      ⟨0, 0, 0, 0, none, none⟩ rfl 0 3 kIdBad 1 0 2 0 3 kIdBad 4 1 8).1,
   (add_same_workreg_out_conflict
      ⟨0, RARegCount.zero, ⟨0⟩, RARegMask.zero, RARegMask.zero, []⟩
      ⟨0, 0, 0, 0, none, none⟩ rfl 0 3 kIdBad 1 0 2 0 3 kIdBad 4 1 8).2.1⟩

/-- C3: a second `add` call for a WorkReg whose scratch link points at an
in-progress tied record in this builder (and that does not hit the
`OverlappedRegs` error) creates no new tied record — `tiedRegCount` is
unchanged — and merges into the existing one: the (fixed-register-augmented)
flags are OR-ed in, `allocableRegs` is intersected with the new allocable
mask, the use/out rewrite masks are OR-ed with the new masks, and the ref
count is incremented by one. -/
theorem add_merges_into_existing (ib : RAInstBuilder) (wr : RAWorkReg) (i : Nat)
    (hl : wr.tiedReg = some i) (hi : i < ib.tiedRegs.length)
    (f a u ur o orm : Nat)
    (hok : ¬(o ≠ kIdBad ∧ (ib.tiedRegs.getD i default).hasOutId = true)) :
    ((ib.add wr f a u ur o orm).2.2 = none) ∧
    ((ib.add wr f a u ur o orm).1.tiedRegCount = ib.tiedRegCount) ∧
    ((ib.add wr f a u ur o orm).2.1 = wr) ∧
    ((ib.add wr f a u ur o orm).1.tiedRegs.getD i default =
      { workId := (ib.tiedRegs.getD i default).workId
        flags := (ib.tiedRegs.getD i default).flags |||
          (if o ≠ kIdBad then
            (if u ≠ kIdBad then f ||| kUseFixed else f) ||| kOutFixed
           else (if u ≠ kIdBad then f ||| kUseFixed else f))
        allocableRegs := (ib.tiedRegs.getD i default).allocableRegs &&& a
        useId := (ib.tiedRegs.getD i default).useId
        useRewriteMask := (ib.tiedRegs.getD i default).useRewriteMask ||| ur
        outId := if o ≠ kIdBad then o else (ib.tiedRegs.getD i default).outId
        outRewriteMask := (ib.tiedRegs.getD i default).outRewriteMask ||| orm
        refCount := (ib.tiedRegs.getD i default).refCount + 1 }) := by
  by_cases hu : u = kIdBad <;> by_cases ho : o = kIdBad <;>
    simp [RAInstBuilder.add, RATiedReg.setOutId, RATiedReg.addRefCount,
      RATiedReg.addFlags, RAInstBuilder.tiedRegCount, RARegMask.orAt,
      RARegsStats.makeUsed, RARegsStats.makeFixed, hl, hu, ho, hok,
      List.getD_eq_getElem?_getD, List.getElem?_set_self hi] at hok ⊢ <;>
    simp [hok, List.getElem?_set_self hi]

/-- A builder holding one in-progress tied record (no fixed out id yet),
used to exercise the merge path of `add`. -/
def mergeIb : RAInstBuilder :=
  ⟨0, [1, 0, 0, 0], ⟨1⟩, [0, 0, 0, 0], [0, 0, 0, 0],
   [⟨0, 0, 3, kIdBad, 1, kIdBad, 0, 1⟩]⟩

/-- A WorkReg whose scratch link points at `mergeIb`'s tied record 0. -/
def mergeWr : RAWorkReg := ⟨0, 0, 0, 0, some 0, none⟩

/-- Witness for C3: merging a second reference (flags 2, allocable 1, out
register 7, rewrite masks 4 and 8) into `mergeIb`'s record 0 keeps the count
at one and produces the merged record. -/
theorem add_merges_into_existing_witness :
    ((mergeIb.add mergeWr 2 1 kIdBad 4 7 8).2.2 = none) ∧
    ((mergeIb.add mergeWr 2 1 kIdBad 4 7 8).1.tiedRegCount = mergeIb.tiedRegCount) ∧
    ((mergeIb.add mergeWr 2 1 kIdBad 4 7 8).2.1 = mergeWr) ∧
    ((mergeIb.add mergeWr 2 1 kIdBad 4 7 8).1.tiedRegs.getD 0 default =
      ⟨0, 34, 1, kIdBad, 5, 7, 8, 2⟩) := by
  have h := add_merges_into_existing mergeIb mergeWr 0 rfl (by decide)
    2 1 kIdBad 4 7 8 (by decide)
  refine ⟨h.1, h.2.1, h.2.2.1, ?_⟩
  rw [h.2.2.2]
  decide

theorem kUseFixed_testBit : kUseFixed.testBit 4 = true := by decide

theorem kOutFixed_testBit : kOutFixed.testBit 5 = true := by decide

theorem and_flag_ne_zero {x m k : Nat} (hm : m.testBit k = true)
    (hx : x.testBit k = true) : x &&& m ≠ 0 := by
  refine ne_zero_of_testBit (k := k) ?_
  simp [Nat.testBit_and, hm, hx]

theorem add_result_builder_fields (ib : RAInstBuilder) (wr : RAWorkReg)
    (f a u ur o orm : Nat) :
    ((ib.add wr f a u ur o orm).1.stats =
      RARegsStats.makeUsed (if u ≠ kIdBad then ib.stats.makeFixed wr.group else ib.stats)
        wr.group) ∧
    ((ib.add wr f a u ur o orm).1.used =
      if u ≠ kIdBad then RARegMask.orAt ib.used wr.group (mask u) else ib.used) ∧
    ((ib.add wr f a u ur o orm).1.clobbered =
      if o ≠ kIdBad then RARegMask.orAt ib.clobbered wr.group (mask o) else ib.clobbered) ∧
    ((ib.add wr f a u ur o orm).1.flags = ib.flags |||
      (if o ≠ kIdBad then (if u ≠ kIdBad then f ||| kUseFixed else f) ||| kOutFixed
       else (if u ≠ kIdBad then f ||| kUseFixed else f))) := by
  by_cases hu : u = kIdBad <;> by_cases ho : o = kIdBad <;>
    cases hw : wr.tiedReg <;>
    simp [RAInstBuilder.add, hu, ho, hw] <;>
    split <;> simp

/-- C4: effects on the builder of every call to `add` with the WorkReg's
group g: if `useId != kIdBad` then `stats.fixed[g]` is marked, `mask useId`
is OR-ed into `used[g]`, and (on success) the `UseFixed` flag is set on the
tied record; if `outId != kIdBad` then `mask outId` is OR-ed into
`clobbered[g]` and (on success) the `OutFixed` flag is set on the tied
record; in every case `stats.used[g]` is marked and the call's
(fixed-register-augmented) flags are OR-ed into the builder's
instruction-level flag word. -/
theorem add_builder_effects (ib : RAInstBuilder) (wr : RAWorkReg)
    (f a u ur o orm : Nat) (hg : wr.group < 4)
    (hu4 : ib.used.length = 4) (hc4 : ib.clobbered.length = 4)
    (hlink : ∀ i, wr.tiedReg = some i → i < ib.tiedRegs.length) :
    (u ≠ kIdBad →
      (ib.add wr f a u ur o orm).1.stats.hasFixed wr.group = true ∧
      (ib.add wr f a u ur o orm).1.used.getD wr.group 0 =
        ib.used.getD wr.group 0 ||| mask u) ∧
    (o ≠ kIdBad →
      (ib.add wr f a u ur o orm).1.clobbered.getD wr.group 0 =
        ib.clobbered.getD wr.group 0 ||| mask o) ∧
    ((ib.add wr f a u ur o orm).1.stats.hasUsed wr.group = true) ∧
    ((ib.add wr f a u ur o orm).1.flags = ib.flags |||
      (if o ≠ kIdBad then (if u ≠ kIdBad then f ||| kUseFixed else f) ||| kOutFixed
       else (if u ≠ kIdBad then f ||| kUseFixed else f))) ∧
    (∀ j, (ib.add wr f a u ur o orm).2.2 = none →
      (ib.add wr f a u ur o orm).2.1.tiedReg = some j →
      (u ≠ kIdBad →
        ((ib.add wr f a u ur o orm).1.tiedRegs.getD j default).flags &&& kUseFixed ≠ 0) ∧
      (o ≠ kIdBad →
        ((ib.add wr f a u ur o orm).1.tiedRegs.getD j default).flags &&& kOutFixed ≠ 0)) := by
  have hg32 : wr.group < 32 := by omega
  have hg832 : 8 + wr.group < 32 := by omega
  obtain ⟨hst, hus, hcl, hfl⟩ := add_result_builder_fields ib wr f a u ur o orm
  refine ⟨?_, ?_, ?_, hfl, ?_⟩
  · intro hu
    constructor
    · rw [hst]
      simp only [if_pos hu, RARegsStats.makeUsed, RARegsStats.makeFixed,
        RARegsStats.hasFixed, ne_eq, decide_eq_true_eq]
      exact and_mask_ne_zero hg832 (by
        simp [Nat.testBit_or, mask_testBit_self hg832])
    · rw [hus]
      simp only [if_pos hu, RARegMask.orAt]
      have hlt : wr.group < ib.used.length := by omega
      simp [List.getD_eq_getElem?_getD, List.getElem?_set_self hlt]
  · intro ho
    rw [hcl]
    simp only [if_pos ho, RARegMask.orAt]
    have hlt : wr.group < ib.clobbered.length := by omega
    simp [List.getD_eq_getElem?_getD, List.getElem?_set_self hlt]
  · rw [hst]
    simp only [RARegsStats.makeUsed, RARegsStats.hasUsed, ne_eq, decide_eq_true_eq]
    exact and_mask_ne_zero hg32 (by simp [Nat.testBit_or, mask_testBit_self hg32])
  · intro j hok hj
    cases hw : wr.tiedReg with
    | none =>
      constructor
      · intro hu
        by_cases ho : o = kIdBad <;>
          simp [RAInstBuilder.add, hw, hu, ho, RAWorkReg.setTiedReg,
            RATiedReg.init, List.getD_eq_getElem?_getD,
            List.getElem?_concat_length, RAInstBuilder.add, hw] at hj ⊢ <;>
          subst hj <;>
          simp [List.getD_eq_getElem?_getD, List.getElem?_concat_length] <;>
          exact and_flag_ne_zero kUseFixed_testBit
            (by simp [Nat.testBit_or, kUseFixed_testBit])
      · intro ho
        by_cases hu : u = kIdBad <;>
          simp [RAInstBuilder.add, hw, hu, ho, RAWorkReg.setTiedReg,
            RATiedReg.init, List.getD_eq_getElem?_getD,
            List.getElem?_concat_length] at hj ⊢ <;>
          subst hj <;>
          simp [List.getD_eq_getElem?_getD, List.getElem?_concat_length] <;>
          exact and_flag_ne_zero kOutFixed_testBit
            (by simp [Nat.testBit_or, kOutFixed_testBit])
    | some i =>
      have hi := hlink i hw
      by_cases hov : o ≠ kIdBad ∧ (ib.tiedRegs.getD i default).hasOutId = true
      · exfalso
        have hov' := hov
        simp only [List.getD_eq_getElem?_getD] at hov'
        by_cases hu : u = kIdBad <;>
          simp [RAInstBuilder.add, hw, hu, hov', hov'.1,
            List.getD_eq_getElem?_getD] at hok
      · obtain ⟨h1, h2, h3, h4⟩ := add_merges_into_existing ib wr i hw hi f a u ur o orm hov
        have hji : j = i := by
          rw [h3, hw] at hj
          injection hj with hji
          exact hji.symm
        subst hji
        rw [h4]
        constructor
        · intro hu
          refine and_flag_ne_zero kUseFixed_testBit ?_
          simp [Nat.testBit_or, kUseFixed_testBit, hu, if_pos]
          by_cases ho : o = kIdBad <;> simp [ho, Nat.testBit_or, kUseFixed_testBit]
        · intro ho
          refine and_flag_ne_zero kOutFixed_testBit ?_
          simp [Nat.testBit_or, kOutFixed_testBit, ho, if_pos]

/-- Witness for C4: one `add` call on an empty builder (instruction flags 7)
for a group-1 WorkReg with fixed use register 2 and fixed out register 4. -/
theorem add_builder_effects_witness :
    (((⟨7, [0, 0, 0, 0], ⟨0⟩, [0, 0, 0, 0], [0, 0, 0, 0], []⟩ : RAInstBuilder).add
        ⟨3, 1, 0, 0, none, none⟩ 1 6 2 16 4 32).1.stats.hasFixed 1 = true) ∧
    (((⟨7, [0, 0, 0, 0], ⟨0⟩, [0, 0, 0, 0], [0, 0, 0, 0], []⟩ : RAInstBuilder).add
        ⟨3, 1, 0, 0, none, none⟩ 1 6 2 16 4 32).1.used.getD 1 0 = mask 2) ∧
    (((⟨7, [0, 0, 0, 0], ⟨0⟩, [0, 0, 0, 0], [0, 0, 0, 0], []⟩ : RAInstBuilder).add
        ⟨3, 1, 0, 0, none, none⟩ 1 6 2 16 4 32).1.clobbered.getD 1 0 = mask 4) ∧
    (((⟨7, [0, 0, 0, 0], ⟨0⟩, [0, 0, 0, 0], [0, 0, 0, 0], []⟩ : RAInstBuilder).add
        ⟨3, 1, 0, 0, none, none⟩ 1 6 2 16 4 32).1.stats.hasUsed 1 = true) ∧
    (((⟨7, [0, 0, 0, 0], ⟨0⟩, [0, 0, 0, 0], [0, 0, 0, 0], []⟩ : RAInstBuilder).add
        ⟨3, 1, 0, 0, none, none⟩ 1 6 2 16 4 32).1.flags =
      7 ||| (1 ||| kUseFixed ||| kOutFixed)) ∧
    ((((⟨7, [0, 0, 0, 0], ⟨0⟩, [0, 0, 0, 0], [0, 0, 0, 0], []⟩ : RAInstBuilder).add
        ⟨3, 1, 0, 0, none, none⟩ 1 6 2 16 4 32).1.tiedRegs.getD 0 default).flags &&&
      kUseFixed ≠ 0) ∧
    ((((⟨7, [0, 0, 0, 0], ⟨0⟩, [0, 0, 0, 0], [0, 0, 0, 0], []⟩ : RAInstBuilder).add
        ⟨3, 1, 0, 0, none, none⟩ 1 6 2 16 4 32).1.tiedRegs.getD 0 default).flags &&&
      kOutFixed ≠ 0) := by
  have h := add_builder_effects
    ⟨7, [0, 0, 0, 0], ⟨0⟩, [0, 0, 0, 0], [0, 0, 0, 0], []⟩
    ⟨3, 1, 0, 0, none, none⟩ 1 6 2 16 4 32 (by decide) rfl rfl
    (fun i hh => Option.noConfusion hh)
  refine ⟨(h.1 (by decide)).1, ?_, ?_, h.2.2.1, ?_,
    (h.2.2.2.2 0 (by decide) (by decide)).1 (by decide),
    (h.2.2.2.2 0 (by decide) (by decide)).2 (by decide)⟩
  · rw [(h.1 (by decide)).2]
    decide
  · rw [h.2.1 (by decide)]
    decide
  · rw [h.2.2.2.1]
    decide

/-- The register group of a tied register as `assignRAInst` reads it:
`workRegById(tiedReg->workId())->group()`. -/
def groupOf (workRegs : List RAWorkReg) (t : RATiedReg) : Nat :=
  (workRegs.getD t.workId default).group

/-- The record `assignRAInst` actually stores for a source tied register `t`:
`t` with its allocable mask stripped of the builder's fixed-use registers of
`t`'s group (`dst._allocableRegs &= ~ib._used[group]`, rapass_p.h:600). -/
def publishedTied (workRegs : List RAWorkReg) (used : List Nat) (t : RATiedReg) : RATiedReg :=
  { t with allocableRegs := t.allocableRegs &&& not32 (used.getD (groupOf workRegs t) 0) }

/-- The tied registers of group `g` in builder order. -/
def tiedOfGroup (workRegs : List RAWorkReg) (g : Nat) (ts : List RATiedReg) :
    List RATiedReg :=
  ts.filter (fun t => groupOf workRegs t = g)

/-- The number of tied registers of group `g`. -/
def countOfGroup (workRegs : List RAWorkReg) (g : Nat) (ts : List RATiedReg) : Nat :=
  (tiedOfGroup workRegs g ts).length

theorem tiedOfGroup_cons_pos {st : List RAWorkReg} {t : RATiedReg} {g : Nat}
    (h : groupOf st t = g) (rest : List RATiedReg) :
    tiedOfGroup st g (t :: rest) = t :: tiedOfGroup st g rest := by
  simp [tiedOfGroup, List.filter_cons, h]

theorem tiedOfGroup_cons_neg {st : List RAWorkReg} {t : RATiedReg} {g : Nat}
    (h : groupOf st t ≠ g) (rest : List RATiedReg) :
    tiedOfGroup st g (t :: rest) = tiedOfGroup st g rest := by
  simp [tiedOfGroup, List.filter_cons, h]

theorem countOfGroup_cons_pos {st : List RAWorkReg} {t : RATiedReg} {g : Nat}
    (h : groupOf st t = g) (rest : List RATiedReg) :
    countOfGroup st g (t :: rest) = countOfGroup st g rest + 1 := by
  simp [countOfGroup, tiedOfGroup_cons_pos h]

theorem countOfGroup_cons_neg {st : List RAWorkReg} {t : RATiedReg} {g : Nat}
    (h : groupOf st t ≠ g) (rest : List RATiedReg) :
    countOfGroup st g (t :: rest) = countOfGroup st g rest := by
  simp [countOfGroup, tiedOfGroup_cons_neg h]

theorem getD_set_group (ws : List RAWorkReg) (tid id : Nat) (w : RAWorkReg)
    (hw : w.group = (ws.getD tid default).group) :
    ((ws.set tid w).getD id default).group = (ws.getD id default).group := by
  by_cases h : tid = id
  · subst h
    by_cases hlt : tid < ws.length
    · rw [List.getD_eq_getElem?_getD, List.getElem?_set_self hlt]
      simpa using hw
    · rw [List.set_eq_of_length_le (Nat.le_of_not_lt hlt)]
  · rw [List.getD_eq_getElem?_getD, List.getElem?_set_ne h, ← List.getD_eq_getElem?_getD]

theorem assignStep_keeps_groups (used : List Nat) (acc : AssignAcc) (t : RATiedReg)
    (id : Nat) :
    (((assignStep used acc t).workRegs).getD id default).group =
      ((acc.workRegs).getD id default).group :=
  getD_set_group acc.workRegs t.workId id _ rfl

theorem foldl_keeps_groups (used : List Nat) :
    ∀ (ts : List RATiedReg) (acc : AssignAcc) (id : Nat),
    (((ts.foldl (assignStep used) acc).workRegs).getD id default).group =
      ((acc.workRegs).getD id default).group := by
  intro ts
  induction ts with
  | nil => intro acc id; rfl
  | cons t rest ih =>
    intro acc id
    rw [List.foldl_cons, ih, assignStep_keeps_groups]

theorem assignStep_resets (used : List Nat) (acc : AssignAcc) (t : RATiedReg) :
    (((assignStep used acc t).workRegs).getD t.workId default).tiedReg = none := by
  show ((acc.workRegs.set t.workId
    ((acc.workRegs.getD t.workId default).resetTiedReg)).getD t.workId default).tiedReg = none
  by_cases hlt : t.workId < acc.workRegs.length
  · rw [List.getD_eq_getElem?_getD, List.getElem?_set_self hlt]
    rfl
  · rw [List.set_eq_of_length_le (Nat.le_of_not_lt hlt),
      List.getD_eq_getElem?_getD, List.getElem?_eq_none (Nat.le_of_not_lt hlt)]
    rfl

theorem assignStep_keeps_none (used : List Nat) (acc : AssignAcc) (t : RATiedReg)
    (id : Nat) (h : ((acc.workRegs).getD id default).tiedReg = none) :
    (((assignStep used acc t).workRegs).getD id default).tiedReg = none := by
  by_cases he : t.workId = id
  · subst he
    exact assignStep_resets used acc t
  · show ((acc.workRegs.set t.workId
      ((acc.workRegs.getD t.workId default).resetTiedReg)).getD id default).tiedReg = none
    rw [List.getD_eq_getElem?_getD, List.getElem?_set_ne he, ← List.getD_eq_getElem?_getD]
    exact h

theorem foldl_keeps_none (used : List Nat) :
    ∀ (ts : List RATiedReg) (acc : AssignAcc) (id : Nat),
    ((acc.workRegs).getD id default).tiedReg = none →
    (((ts.foldl (assignStep used) acc).workRegs).getD id default).tiedReg = none := by
  intro ts
  induction ts with
  | nil => intro acc id h; exact h
  | cons hd rest ih =>
    intro acc id h
    rw [List.foldl_cons]
    exact ih _ id (assignStep_keeps_none used acc hd id h)

theorem foldl_resets (used : List Nat) :
    ∀ (ts : List RATiedReg) (acc : AssignAcc) (t : RATiedReg), t ∈ ts →
    (((ts.foldl (assignStep used) acc).workRegs).getD t.workId default).tiedReg = none := by
  intro ts
  induction ts with
  | nil => intro acc t ht; cases ht
  | cons hd rest ih =>
    intro acc t ht
    rw [List.foldl_cons]
    rcases List.mem_cons.mp ht with he | hm
    · subst he
      exact foldl_keeps_none used rest _ t.workId (assignStep_resets used acc t)
    · exact ih _ t hm

theorem assignStep_arr (used : List Nat) (acc : AssignAcc) (t : RATiedReg) (g : Nat)
    (hgrp : ((acc.workRegs).getD t.workId default).group = g) :
    (assignStep used acc t).arr = acc.arr.set (acc.index.getD g 0)
      { t with allocableRegs := t.allocableRegs &&& not32 (used.getD g 0) } := by
  subst hgrp
  rfl

theorem assignStep_index (used : List Nat) (acc : AssignAcc) (t : RATiedReg) (g : Nat)
    (hgrp : ((acc.workRegs).getD t.workId default).group = g) :
    (assignStep used acc t).index = acc.index.set g (acc.index.getD g 0 + 1) := by
  subst hgrp
  rfl

theorem foldl_arr_length (used : List Nat) :
    ∀ (ts : List RATiedReg) (acc : AssignAcc),
    ((ts.foldl (assignStep used) acc).arr).length = acc.arr.length := by
  intro ts
  induction ts with
  | nil => intro acc; rfl
  | cons hd rest ih =>
    intro acc
    rw [List.foldl_cons, ih]
    show (acc.arr.set _ _).length = acc.arr.length
    exact List.length_set ..

theorem placeLoop_spec (used : List Nat) (st : List RAWorkReg) :
    ∀ (ts : List RATiedReg) (acc : AssignAcc),
    (∀ id, ((acc.workRegs).getD id default).group = (st.getD id default).group) →
    (∀ t ∈ ts, groupOf st t < 4) →
    acc.index.length = 4 →
    (∀ g, g < 4 → acc.index.getD g 0 + countOfGroup st g ts ≤ acc.arr.length) →
    (∀ g h, g < 4 → h < 4 → g ≠ h →
      acc.index.getD g 0 + countOfGroup st g ts ≤ acc.index.getD h 0 ∨
      acc.index.getD h 0 + countOfGroup st h ts ≤ acc.index.getD g 0) →
    (∀ g, g < 4 → ∀ j, j < countOfGroup st g ts →
      ((ts.foldl (assignStep used) acc).arr)[acc.index.getD g 0 + j]? =
        ((tiedOfGroup st g ts).map (publishedTied st used))[j]?) ∧
    (∀ p, (∀ g, g < 4 → p < acc.index.getD g 0 ∨
        acc.index.getD g 0 + countOfGroup st g ts ≤ p) →
      ((ts.foldl (assignStep used) acc).arr)[p]? = acc.arr[p]?) := by
  intro ts
  induction ts with
  | nil =>
    intro acc h1 hg hlen hbound hdisj
    constructor
    · intro g hg4 j hj
      exact absurd hj (by simp [countOfGroup, tiedOfGroup])
    · intro p hp
      rfl
  | cons t rest ih =>
    intro acc h1 hg hlen hbound hdisj
    have hg0 : groupOf st t < 4 := hg t (List.mem_cons_self t rest)
    have hgrp : ((acc.workRegs).getD t.workId default).group = groupOf st t := by
      rw [h1 t.workId]
      rfl
    have hA1 : (assignStep used acc t).arr =
        acc.arr.set (acc.index.getD (groupOf st t) 0) (publishedTied st used t) :=
      assignStep_arr used acc t (groupOf st t) hgrp
    have hA2 : (assignStep used acc t).index =
        acc.index.set (groupOf st t) (acc.index.getD (groupOf st t) 0 + 1) :=
      assignStep_index used acc t (groupOf st t) hgrp
    have hA3 : ∀ id, (((assignStep used acc t).workRegs).getD id default).group =
        (st.getD id default).group := by
      intro id
      rw [assignStep_keeps_groups]
      exact h1 id
    have hA4 : (assignStep used acc t).index.length = 4 := by
      rw [hA2, List.length_set]
      exact hlen
    have hA5 : (assignStep used acc t).arr.length = acc.arr.length := by
      rw [hA1, List.length_set]
    have hI1 : (assignStep used acc t).index.getD (groupOf st t) 0 =
        acc.index.getD (groupOf st t) 0 + 1 := by
      rw [hA2, List.getD_eq_getElem?_getD,
        List.getElem?_set_self (by rw [hlen]; exact hg0)]
      rfl
    have hI2 : ∀ g, g ≠ groupOf st t →
        (assignStep used acc t).index.getD g 0 = acc.index.getD g 0 := by
      intro g hne
      rw [hA2, List.getD_eq_getElem?_getD,
        List.getElem?_set_ne (fun he => hne he.symm), ← List.getD_eq_getElem?_getD]
    have hC1 : countOfGroup st (groupOf st t) (t :: rest) =
        countOfGroup st (groupOf st t) rest + 1 :=
      countOfGroup_cons_pos rfl rest
    have hC2 : ∀ g, g ≠ groupOf st t →
        countOfGroup st g (t :: rest) = countOfGroup st g rest := by
      intro g hne
      exact countOfGroup_cons_neg (fun he => hne he.symm) rest
    have hbound' : ∀ g, g < 4 →
        (assignStep used acc t).index.getD g 0 + countOfGroup st g rest ≤
          (assignStep used acc t).arr.length := by
      intro g hg4
      by_cases hgg : g = groupOf st t
      · subst hgg
        rw [hI1, hA5]
        have hb := hbound (groupOf st t) hg4
        rw [hC1] at hb
        omega
      · rw [hI2 g hgg, hA5]
        have hb := hbound g hg4
        rw [hC2 g hgg] at hb
        exact hb
    have hdisj' : ∀ g h, g < 4 → h < 4 → g ≠ h →
        (assignStep used acc t).index.getD g 0 + countOfGroup st g rest ≤
          (assignStep used acc t).index.getD h 0 ∨
        (assignStep used acc t).index.getD h 0 + countOfGroup st h rest ≤
          (assignStep used acc t).index.getD g 0 := by
      intro g h hg4 hh4 hne
      have horig := hdisj g h hg4 hh4 hne
      by_cases hgg : g = groupOf st t
      · subst hgg
        have hhne : h ≠ groupOf st t := fun he => hne he.symm
        rw [hI1, hI2 h hhne]
        rw [hC1, hC2 h hhne] at horig
        omega
      · by_cases hhh : h = groupOf st t
        · subst hhh
          rw [hI1, hI2 g hgg]
          rw [hC2 g hgg, hC1] at horig
          omega
        · rw [hI2 g hgg, hI2 h hhh]
          rw [hC2 g hgg, hC2 h hhh] at horig
          exact horig
    have hIH := ih (assignStep used acc t) hA3
      (fun t' ht' => hg t' (List.mem_cons_of_mem t ht')) hA4 hbound' hdisj'
    have hpos_lt : acc.index.getD (groupOf st t) 0 < acc.arr.length := by
      have := hbound (groupOf st t) hg0
      rw [hC1] at this
      omega
    constructor
    · intro g hg4 j hj
      rw [List.foldl_cons]
      by_cases hgg : g = groupOf st t
      · subst hgg
        cases j with
        | zero =>
          have hframe : ∀ h, h < 4 →
              acc.index.getD (groupOf st t) 0 < (assignStep used acc t).index.getD h 0 ∨
              (assignStep used acc t).index.getD h 0 + countOfGroup st h rest ≤
                acc.index.getD (groupOf st t) 0 := by
            intro h hh4
            by_cases hhh : h = groupOf st t
            · subst hhh
              left
              rw [hI1]
              omega
            · have hd := hdisj (groupOf st t) h hg0 hh4 (fun he => hhh he.symm)
              rcases hd with hd | hd
              · left
                rw [hI2 h hhh]
                rw [hC1] at hd
                omega
              · right
                rw [hI2 h hhh]
                rw [hC2 h hhh] at hd
                exact hd
          rw [Nat.add_zero]
          rw [hIH.2 (acc.index.getD (groupOf st t) 0) hframe, hA1,
            List.getElem?_set_self hpos_lt]
          rw [tiedOfGroup_cons_pos rfl, List.map_cons]
          simp
        | succ j' =>
          rw [hC1] at hj
          have hj' : j' < countOfGroup st (groupOf st t) rest := by omega
          have hme := hIH.1 (groupOf st t) hg4 j' hj'
          rw [hI1] at hme
          have harith : acc.index.getD (groupOf st t) 0 + (j' + 1) =
              acc.index.getD (groupOf st t) 0 + 1 + j' := by omega
          rw [harith, hme, tiedOfGroup_cons_pos rfl, List.map_cons]
          simp
      · have hj2 : j < countOfGroup st g rest := by
          rw [hC2 g hgg] at hj
          exact hj
        have hme := hIH.1 g hg4 j hj2
        rw [hI2 g hgg] at hme
        rw [hme, tiedOfGroup_cons_neg (fun he => hgg he.symm)]
    · intro p hp
      rw [List.foldl_cons]
      have hframe : ∀ g, g < 4 →
          p < (assignStep used acc t).index.getD g 0 ∨
          (assignStep used acc t).index.getD g 0 + countOfGroup st g rest ≤ p := by
        intro g hg4
        by_cases hgg : g = groupOf st t
        · subst hgg
          rcases hp (groupOf st t) hg4 with h | h
          · left
            rw [hI1]
            omega
          · right
            rw [hI1]
            rw [hC1] at h
            omega
        · rw [hI2 g hgg]
          rcases hp g hg4 with h | h
          · exact Or.inl h
          · right
            rw [hC2 g hgg] at h
            exact h
      rw [hIH.2 p hframe, hA1]
      have hpne : acc.index.getD (groupOf st t) 0 ≠ p := by
        rcases hp (groupOf st t) hg0 with h | h
        · omega
        · rw [hC1] at h
          omega
      rw [List.getElem?_set_ne hpne]

theorem counts_sum (st : List RAWorkReg) :
    ∀ (ts : List RATiedReg), (∀ t ∈ ts, groupOf st t < 4) →
    countOfGroup st 0 ts + countOfGroup st 1 ts + countOfGroup st 2 ts +
      countOfGroup st 3 ts = ts.length := by
  intro ts
  induction ts with
  | nil => intro h; rfl
  | cons t rest ih =>
    intro h
    have h4 := h t (List.mem_cons_self t rest)
    have hr := ih (fun t' ht' => h t' (List.mem_cons_of_mem t ht'))
    have hcase : groupOf st t = 0 ∨ groupOf st t = 1 ∨ groupOf st t = 2 ∨
        groupOf st t = 3 := by omega
    rcases hcase with h0 | h0 | h0 | h0 <;>
      rw [List.length_cons] <;>
      [rw [countOfGroup_cons_pos h0, countOfGroup_cons_neg (by omega),
        countOfGroup_cons_neg (by omega), countOfGroup_cons_neg (by omega)];
       rw [countOfGroup_cons_neg (by omega), countOfGroup_cons_pos h0,
        countOfGroup_cons_neg (by omega), countOfGroup_cons_neg (by omega)];
       rw [countOfGroup_cons_neg (by omega), countOfGroup_cons_neg (by omega),
        countOfGroup_cons_pos h0, countOfGroup_cons_neg (by omega)];
       rw [countOfGroup_cons_neg (by omega), countOfGroup_cons_neg (by omega),
        countOfGroup_cons_neg (by omega), countOfGroup_cons_pos h0]] <;>
      omega

/-- C2 (amended): `assignRAInst` publishes the builder into the freshly
allocated `RAInst`: the per-group index prefix sums are built from the
builder's per-group counts, every tied register of the builder lands in the
inline array grouped by register group in builder order (the tied regs of
group g occupy indices `index[g] .. index[g]+count[g]`), each copy carrying
the source record with its `allocableRegs` additionally stripped of the
builder's fixed-use register mask of its group, the scratch tied-reg pointer
of every involved WorkReg is null afterwards, and the RAInst is stored in the
node's pass-data slot. -/
theorem assignRAInst_publishes (node : BaseNode) (block : RABlock)
    (st : List RAWorkReg) (ib : RAInstBuilder)
    (hg : ∀ t ∈ ib.tiedRegs, groupOf st t < 4)
    (hc : ∀ g, g < 4 → ib.count.getD g 0 = countOfGroup st g ib.tiedRegs) :
    ((RAPass.assignRAInst node block st ib).2.2.2.tiedIndex =
      RARegIndex.buildIndexes ib.count) ∧
    ((RAPass.assignRAInst node block st ib).2.2.2.tiedCount = ib.count) ∧
    ((RAPass.assignRAInst node block st ib).2.2.2.tiedTotal = ib.tiedRegCount) ∧
    (∀ g, g < 4 → ∀ j, j < ib.count.getD g 0 →
      ((RAPass.assignRAInst node block st ib).2.2.2.tiedRegs)[
          (RARegIndex.buildIndexes ib.count).getD g 0 + j]? =
        ((tiedOfGroup st g ib.tiedRegs).map (publishedTied st ib.used))[j]?) ∧
    (∀ t ∈ ib.tiedRegs,
      (((RAPass.assignRAInst node block st ib).2.2.1).getD t.workId default).tiedReg =
        none) ∧
    ((RAPass.assignRAInst node block st ib).1.passData =
      some (RAPass.assignRAInst node block st ib).2.2.2) := by
  have hsum := counts_sum st ib.tiedRegs hg
  have h0 := hc 0 (by omega)
  have h1 := hc 1 (by omega)
  have h2 := hc 2 (by omega)
  have h3 := hc 3 (by omega)
  have key := placeLoop_spec ib.used st ib.tiedRegs
    { arr := List.replicate ib.tiedRegCount default
      index := RARegIndex.buildIndexes ib.count
      workRegs := st
      blockFlags := block.flags
      usedRegs := RARegMask.zero }
    (fun id => rfl) hg rfl
    (by
      intro g hg4
      have hcase : g = 0 ∨ g = 1 ∨ g = 2 ∨ g = 3 := by omega
      rcases hcase with rfl | rfl | rfl | rfl <;>
        simp only [RARegIndex.buildIndexes, List.getD_cons_zero,
          List.getD_cons_succ, List.length_replicate, RAInstBuilder.tiedRegCount] <;>
        omega)
    (by
      intro g h hg4 hh4 hne
      have hcg : g = 0 ∨ g = 1 ∨ g = 2 ∨ g = 3 := by omega
      have hch : h = 0 ∨ h = 1 ∨ h = 2 ∨ h = 3 := by omega
      rcases hcg with rfl | rfl | rfl | rfl <;>
        rcases hch with rfl | rfl | rfl | rfl <;>
        simp only [RARegIndex.buildIndexes, List.getD_cons_zero,
          List.getD_cons_succ] <;>
        omega)
  refine ⟨rfl, rfl, rfl, ?_, ?_, rfl⟩
  · intro g hg4 j hj
    have hj2 : j < countOfGroup st g ib.tiedRegs := by
      rw [hc g hg4] at hj
      exact hj
    exact key.1 g hg4 j hj2
  · intro t ht
    exact foldl_resets ib.used ib.tiedRegs _ t ht

/-- A one-WorkReg table (workId 0, group 0) for exercising `assignRAInst`. -/
def cexSt : List RAWorkReg := [⟨0, 0, 0, 0, some 0, none⟩]

/-- A builder produced by one `add` call that fixes use register 0 for a
WorkReg whose allocable mask is 3 (so `used[0] = 1` overlaps the mask). -/
def cexIb : RAInstBuilder :=
  ((⟨0, RARegCount.zero, ⟨0⟩, RARegMask.zero, RARegMask.zero, []⟩ : RAInstBuilder).add
    ⟨0, 0, 0, 0, none, none⟩ 0 3 0 1 kIdBad 0).1

/-- A node with an empty pass-data slot. -/
def cexNode : BaseNode := ⟨none⟩

/-- A block with no flags and no edges. -/
def cexBlock : RABlock := ⟨0, 0, [], []⟩

/-- Counterexample to C2 as stated: the tied register is NOT copied verbatim
into the RAInst's inline array — `assignRAInst` additionally executes
`dst._allocableRegs &= ~ib._used[group]` (rapass_p.h:600), so with
`allocableRegs = 3` and `used[0] = 1` the stored record has `allocableRegs =
2` and differs from the builder's record. -/
theorem assignRAInst_copy_counterexample :
    (RAPass.assignRAInst cexNode cexBlock cexSt cexIb).2.2.2.tiedRegs[0]? ≠
      cexIb.tiedRegs[0]? ∧
    (RAPass.assignRAInst cexNode cexBlock cexSt cexIb).2.2.2.tiedRegs[0]? =
      some { cexIb.tiedRegs.getD 0 default with
             allocableRegs := (cexIb.tiedRegs.getD 0 default).allocableRegs &&&
               not32 (cexIb.used.getD 0 0) } := by
  decide

/-- Witness for the amended C2 at the concrete builder `cexIb`. -/
theorem assignRAInst_publishes_witness :
    ((RAPass.assignRAInst cexNode cexBlock cexSt cexIb).2.2.2.tiedIndex =
      RARegIndex.buildIndexes cexIb.count) ∧
    ((RAPass.assignRAInst cexNode cexBlock cexSt cexIb).2.2.2.tiedCount =
      cexIb.count) ∧
    ((RAPass.assignRAInst cexNode cexBlock cexSt cexIb).2.2.2.tiedTotal =
      cexIb.tiedRegCount) ∧
    (∀ g, g < 4 → ∀ j, j < cexIb.count.getD g 0 →
      ((RAPass.assignRAInst cexNode cexBlock cexSt cexIb).2.2.2.tiedRegs)[
          (RARegIndex.buildIndexes cexIb.count).getD g 0 + j]? =
        ((tiedOfGroup cexSt g cexIb.tiedRegs).map (publishedTied cexSt cexIb.used))[j]?) ∧
    (∀ t ∈ cexIb.tiedRegs,
      (((RAPass.assignRAInst cexNode cexBlock cexSt cexIb).2.2.1).getD
        t.workId default).tiedReg = none) ∧
    ((RAPass.assignRAInst cexNode cexBlock cexSt cexIb).1.passData =
      some (RAPass.assignRAInst cexNode cexBlock cexSt cexIb).2.2.2) :=
  assignRAInst_publishes cexNode cexBlock cexSt cexIb (by decide) (by decide)

end AsmJit
